import Mathlib

/-!
# Verification of the task lifecycle event core

Shallow embedding of the event subsystem of the todo backend:
the event envelope, the in-memory and Redis-stream event buses
(`src/backend/app/events/event_bus.py`), the reminder / recurrence /
notification subscribers and the SSE connection registry
(`src/backend/app/events/subscribers.py`), and the task service used by
the recurrence subscriber (`src/backend/app/services/task_service.py`).

Python dicts with optional keys are embedded as structures with `Option`
fields; `dict.get(k, default)` becomes `Option.getD`; Python truthiness
of optional strings is made explicit.  Exceptions are embedded as
`Except` results; a `try/except` block becomes a `match` on the result.
-/

/-- Truthiness of a Python `Optional[str]`: `None` and `""` are falsy. -/
def strTruthy : Option String → Bool
  | none => false
  | some s => s ≠ ""

-- ── Model of the Python `datetime` standard library (external collaborator) ──

/-- Model of a Python naive `datetime.datetime` value (no timezone; the
envelopes carry naive ISO-8601 strings). -/
structure DT where
  year : Nat
  month : Nat
  day : Nat
  hour : Nat
  minute : Nat
  second : Nat
  micro : Nat
  deriving DecidableEq, Repr

/-- Gregorian leap-year test, as in `calendar.isleap`. -/
def isLeap (y : Nat) : Bool :=
  y % 4 = 0 && (y % 100 ≠ 0 || y % 400 = 0)

/-- Days in a month of a given year (months 1..12). -/
def daysInMonth (y m : Nat) : Nat :=
  if m = 2 then (if isLeap y then 29 else 28)
  else if m = 1 ∨ m = 3 ∨ m = 5 ∨ m = 7 ∨ m = 8 ∨ m = 10 ∨ m = 12 then 31
  else 30

/-- Days in all years before year `y` (proleptic Gregorian, year ≥ 1). -/
def daysBeforeYear (y : Nat) : Nat :=
  let p := y - 1
  365 * p + p / 4 - p / 100 + p / 400

/-- Days in the months of year `y` strictly before month `m`. -/
def daysBeforeMonth (y m : Nat) : Nat :=
  (List.range (m - 1)).foldl (fun acc i => acc + daysInMonth y (i + 1)) 0

/-- Proleptic Gregorian ordinal of a date (0001-01-01 is day 1), as in
`datetime.date.toordinal`. -/
def toOrdinal (y m d : Nat) : Nat :=
  daysBeforeYear y + daysBeforeMonth y m + d

/-- Find the month containing `dayOfYear` (1-based), walking months as
CPython's `_ord2ymd` does.  `fuel` is 12 at the top call. -/
def monthSearch (y : Nat) (dayOfYear : Nat) (m : Nat) : Nat → Nat × Nat
  | 0 => (m, dayOfYear)
  | fuel + 1 =>
    let dim := daysInMonth y m
    if dayOfYear ≤ dim then (m, dayOfYear)
    else monthSearch y (dayOfYear - dim) (m + 1) fuel

/-- Inverse of `toOrdinal`, following CPython's `_ord2ymd` (400/100/4-year
cycle decomposition, then month walk). -/
def fromOrdinal (n : Nat) : Nat × Nat × Nat :=
  let n0 := n - 1
  let n400 := n0 / 146097
  let r1 := n0 % 146097
  let n100 := r1 / 36524
  let r2 := r1 % 36524
  let n4 := r2 / 1461
  let r3 := r2 % 1461
  let n1 := r3 / 365
  let r4 := r3 % 365
  let year := 400 * n400 + 100 * n100 + 4 * n4 + n1 + 1
  if n1 = 4 ∨ n100 = 4 then (year - 1, 12, 31)
  else
    let (m, d) := monthSearch year (r4 + 1) 1 12
    (year, m, d)

/-- `dt + timedelta(days = k)`: the date moves by `k` days, the time of day
is unchanged (the recurrence deltas are whole numbers of days). -/
def DT.addDays (dt : DT) (k : Nat) : DT :=
  let (y, m, d) := fromOrdinal (toOrdinal dt.year dt.month dt.day + k)
  { dt with year := y, month := m, day := d }

def parseDigit (c : Char) : Option Nat :=
  if '0' ≤ c ∧ c ≤ '9' then some (c.toNat - '0'.toNat) else none

def parse2 (a b : Char) : Option Nat := do
  let x ← parseDigit a
  let y ← parseDigit b
  pure (10 * x + y)

def parse4 (a b c d : Char) : Option Nat := do
  let x ← parse2 a b
  let y ← parse2 c d
  pure (100 * x + y)

/-- Parse the `[:SS[.ffffff]]` tail of an ISO time. -/
def parseSecFrac : List Char → Option (Nat × Nat)
  | [] => some (0, 0)
  | ':' :: s1 :: s2 :: rest => do
    let s ← parse2 s1 s2
    match rest with
    | [] => pure (s, 0)
    | '.' :: f1 :: f2 :: f3 :: [] => do
      let f ← parseDigit f1
      let g ← parseDigit f2
      let h ← parseDigit f3
      pure (s, (100 * f + 10 * g + h) * 1000)
    | '.' :: f1 :: f2 :: f3 :: f4 :: f5 :: f6 :: [] => do
      let f ← parse4 f1 f2 f3 f4
      let g ← parse2 f5 f6
      pure (s, f * 100 + g)
    | _ => none
  | _ => none

/-- Parse the `[*HH[:MM[:SS[.ffffff]]]]` tail after the 10-character date
(the separator may be any character, as in CPython ≤ 3.10). -/
def parseTimeTail : List Char → Option (Nat × Nat × Nat × Nat)
  | [] => some (0, 0, 0, 0)
  | _sep :: h1 :: h2 :: rest => do
    let h ← parse2 h1 h2
    match rest with
    | [] => pure (h, 0, 0, 0)
    | ':' :: m1 :: m2 :: rest2 => do
      let mi ← parse2 m1 m2
      let (s, f) ← parseSecFrac rest2
      pure (h, mi, s, f)
    | _ => none
  | _ => none

/-- Model of `datetime.datetime.fromisoformat` (CPython ≤ 3.10 grammar,
naive datetimes: `YYYY-MM-DD[*HH[:MM[:SS[.fff[fff]]]]]`, no timezone
suffix).  Returns `none` where CPython raises `ValueError`. -/
def DT.fromisoformat (s : String) : Option DT :=
  match s.toList with
  | y1 :: y2 :: y3 :: y4 :: '-' :: m1 :: m2 :: '-' :: d1 :: d2 :: rest => do
    let y ← parse4 y1 y2 y3 y4
    let m ← parse2 m1 m2
    let d ← parse2 d1 d2
    let (h, mi, sec, f) ← parseTimeTail rest
    if 1 ≤ y ∧ 1 ≤ m ∧ m ≤ 12 ∧ 1 ≤ d ∧ d ≤ daysInMonth y m ∧
        h ≤ 23 ∧ mi ≤ 59 ∧ sec ≤ 59 then
      pure ⟨y, m, d, h, mi, sec, f⟩
    else none
  | _ => none

def pad2 (n : Nat) : String :=
  if n < 10 then "0" ++ toString n else toString n

def pad4 (n : Nat) : String :=
  if n < 10 then "000" ++ toString n
  else if n < 100 then "00" ++ toString n
  else if n < 1000 then "0" ++ toString n
  else toString n

def pad6 (n : Nat) : String :=
  let s := toString n
  String.mk (List.replicate (6 - s.length) '0') ++ s

/-- Model of `datetime.datetime.isoformat` for naive datetimes: seconds are
always printed, microseconds only when nonzero. -/
def DT.isoformat (dt : DT) : String :=
  pad4 dt.year ++ "-" ++ pad2 dt.month ++ "-" ++ pad2 dt.day ++ "T" ++
    pad2 dt.hour ++ ":" ++ pad2 dt.minute ++ ":" ++ pad2 dt.second ++
    (if dt.micro = 0 then "" else "." ++ pad6 dt.micro)

-- ── `subscribers.py`: date helpers ────────────────────────────────────

/-- `_RECURRENCE_DELTAS` from `subscribers.py`, as days per recurrence kind
(`daily` → 1 day, `weekly` → 7 days, `monthly` → 30 days, approximate). -/
def recurrenceDeltas (recurrence : String) : Option Nat :=
  if recurrence = "daily" then some 1
  else if recurrence = "weekly" then some 7
  else if recurrence = "monthly" then some 30
  else none

/-- `_compute_next_due` from `subscribers.py`.  Returns the next ISO-8601
due date string, or `none` when the input due date is falsy, the
recurrence is `"none"` or unknown, or the due date fails to parse. -/
def computeNextDue (currentDue : Option String) (recurrence : String) :
    Option String :=
  if ¬ strTruthy currentDue ∨ recurrence = "none" then none
  else
    match recurrenceDeltas recurrence with
    | none => none
    | some delta =>
      match DT.fromisoformat (currentDue.getD "") with
      | none => none
      | some base => some (DT.isoformat (base.addDays delta))

example : DT.fromisoformat "2024-01-01T00:00:00" =
    some ⟨2024, 1, 1, 0, 0, 0, 0⟩ := by decide
example : computeNextDue (some "2024-01-01T00:00:00") "daily" =
    some "2024-01-02T00:00:00" := by decide
example : computeNextDue (some "2024-01-31T05:06:07") "monthly" =
    some "2024-03-01T05:06:07" := by decide
example : computeNextDue (some "2023-12-28T23:59:59") "weekly" =
    some "2024-01-04T23:59:59" := by decide
example : computeNextDue (some "not-a-date") "daily" = none := by decide
example : computeNextDue none "daily" = none := by decide

-- ── Event envelope (`event_types.py`, wire shape of §6) ───────────────

/-- The `payload` dict of a task lifecycle envelope.  Every field is
optional because subscribers read it with `payload.get(key, default)`;
a missing key and an explicit `null` both embed as `none`. -/
structure Payload where
  title : Option String := none
  description : Option String := none
  completed : Option Bool := none
  priority : Option String := none
  tags : Option (List String) := none
  due_date : Option String := none
  recurrence : Option String := none
  reminder_enabled : Option Bool := none
  deriving DecidableEq, Repr

/-- A task lifecycle event envelope (`make_task_event` output plus the
`topic` field the bus assigns at publish time). -/
structure Event where
  event_type : String
  user_id : String
  task_id : Option Nat := none
  timestamp : String := ""
  payload : Payload := {}
  topic : Option String := none
  deriving DecidableEq, Repr

/-- `make_task_event` from `event_types.py`; `now` stands for
`datetime.utcnow().isoformat()`. -/
def makeTaskEvent (event_type user_id : String) (task_id : Option Nat)
    (payload : Payload) (now : String) : Event :=
  { event_type := event_type, user_id := user_id, task_id := task_id,
    timestamp := now, payload := payload, topic := none }

-- ── Reminder subscriber (`subscribers.py`) ────────────────────────────

/-- The `_pending_reminders` dict: task_id → scheduled time (ISO string).
The key is `event.get("task_id")`, hence `Option Nat`. -/
abbrev PendingReminders := List (Option Nat × String)

/-- `task_id in _pending_reminders`. -/
def remMember (idx : PendingReminders) (k : Option Nat) : Bool :=
  idx.any (fun p => p.1 = k)

/-- `_pending_reminders[task_id] = due_date` (insert or overwrite). -/
def remSet (idx : PendingReminders) (k : Option Nat) (v : String) :
    PendingReminders :=
  if remMember idx k then idx.map (fun p => if p.1 = k then (k, v) else p)
  else idx ++ [(k, v)]

/-- `del _pending_reminders[task_id]`. -/
def remDel (idx : PendingReminders) (k : Option Nat) : PendingReminders :=
  idx.filter (fun p => ¬ p.1 = k)

/-- `reminder_subscriber` from `subscribers.py`: upsert on
`created`/`updated` with reminder enabled and a truthy due date, delete
otherwise and on `completed`/`deleted`. -/
def reminderStep (e : Event) (idx : PendingReminders) : PendingReminders :=
  let tid := e.task_id
  let p := e.payload
  if e.event_type = "task.created" ∨ e.event_type = "task.updated" then
    let re := p.reminder_enabled.getD false
    let due := p.due_date
    if re ∧ strTruthy due then remSet idx tid (due.getD "")
    else if remMember idx tid then remDel idx tid
    else idx
  else if e.event_type = "task.deleted" ∨ e.event_type = "task.completed" then
    if remMember idx tid then remDel idx tid else idx
  else idx

-- ── Event bus (`event_bus.py`) ────────────────────────────────────────

/-- A subscriber handler: takes the envelope and returns normally or with
an exception (`Except.error` embeds a raised exception's message). -/
def Handler := Event → Except String Unit

/-- Outcome of one `_safe_dispatch` call: the envelope the handler was
invoked with, and the exception it raised, if any (caught and logged,
never propagated). -/
structure DispatchLog where
  received : Event
  errorLogged : Option String
  deriving DecidableEq, Repr

/-- `InMemoryEventBus._safe_dispatch`: invoke the handler; catch and log
any exception.  Total — it never propagates the handler's error. -/
def safeDispatch (h : Handler) (e : Event) : DispatchLog :=
  match h e with
  | .ok _ => { received := e, errorLogged := none }
  | .error m => { received := e, errorLogged := some m }

/-- Result of `InMemoryEventBus.publish`: the enriched envelope it
returns, and the dispatch performed for each registered handler
(each spawned as its own `asyncio` task guarded by `_safe_dispatch`). -/
structure PublishResult where
  env : Event
  dispatches : List DispatchLog

/-- `InMemoryEventBus.publish`: set `event["topic"] = topic`, spawn one
guarded dispatch per handler registered for the topic, return the
enriched envelope. -/
def inMemoryPublish (handlers : List Handler) (topic : String) (e : Event) :
    PublishResult :=
  let e' := { e with topic := some topic }
  { env := e', dispatches := handlers.map (fun h => safeDispatch h e') }

/-- `RedisEventBus.publish`: set the topic field, append the serialized
envelope to the per-topic stream (`xadd`), return the enriched envelope.
The stream is the list of appended envelopes (serialization by
`json.dumps` is the log store's wire concern, inverted by the consumer's
decode). -/
def redisPublish (stream : List Event) (topic : String) (e : Event) :
    Event × List Event :=
  let e' := { e with topic := some topic }
  (e', stream ++ [e'])

/-- Result of processing one `xreadgroup` batch inside
`RedisEventBus._consume`: the entries dispatched (with their handler
dispatch logs), the entry ids acknowledged (`xack`), and the id whose
decode raised, if any — that exception aborts the batch and is caught by
the outer `except` of the consumer loop (logged, 1 s backoff). -/
structure ConsumeResult where
  processed : List (Nat × Event × List DispatchLog)
  acked : List Nat
  failedDecode : Option Nat
  deriving Repr

/-- The per-batch body of `RedisEventBus._consume`: for each message in
order, `json.loads` the data (`decode` is the model of `json.loads` on
the wire string; `none` embeds a raised decode error), dispatch every
handler through `_safe_dispatch`, then `xack` the message.  A decode
exception propagates out of the inner loops: the remaining messages of
the batch are not processed in this iteration. -/
def consumeBatch (decode : String → Option Event) (handlers : List Handler) :
    List (Nat × String) → ConsumeResult
  | [] => { processed := [], acked := [], failedDecode := none }
  | (mid, data) :: rest =>
    match decode data with
    | none => { processed := [], acked := [], failedDecode := some mid }
    | some ev =>
      let logs := handlers.map (fun h => safeDispatch h ev)
      let r := consumeBatch decode handlers rest
      { processed := (mid, ev, logs) :: r.processed,
        acked := mid :: r.acked,
        failedDecode := r.failedDecode }

/-- `TOPIC_TASK_LIFECYCLE` from `event_types.py`. -/
def TOPIC_TASK_LIFECYCLE : String := "task.lifecycle"

-- ── Task store model (`task_service.py`) ──────────────────────────────

/-- A stored task row.  Modelled from the spec: the `Task` model lives in
`app/models/chat_models.py`, which is not under `src/`; the fields are
the ones `task_service.py` reads and writes and the wire payload of §6
lists. -/
structure TaskRow where
  id : Nat
  user_id : String
  title : String
  description : String
  completed : Bool
  priority : String
  tags : Option (List String)
  due_date : Option DT
  recurrence : String
  reminder_enabled : Bool
  deriving DecidableEq, Repr

/-- The task database reached through a session: the stored rows plus the
id the next insert receives.  `now` stands for the current
`datetime.utcnow().isoformat()` used for event timestamps. -/
structure Store where
  tasks : List TaskRow
  nextId : Nat
  now : String
  deriving DecidableEq, Repr

/-- Modelled from the spec: the `PriorityLevel` enum of
`app/models/chat_models.py` (not under `src/`); §6 gives the values
`high | medium | low`, and the enum constructor raises `ValueError` on
anything else. -/
def priorityLevelValid (s : String) : Bool :=
  s = "high" ∨ s = "medium" ∨ s = "low"

/-- Modelled from the spec: the `RecurrenceType` enum of
`app/models/chat_models.py` (not under `src/`); §6 gives the values
`none | daily | weekly | monthly`. -/
def recurrenceTypeValid (s : String) : Bool :=
  s = "none" ∨ s = "daily" ∨ s = "weekly" ∨ s = "monthly"

/-- `TaskService.get_task_by_id`: first row matching (task_id, user_id). -/
def getTaskById (st : Store) (task_id : Nat) (user_id : String) :
    Option TaskRow :=
  st.tasks.find? (fun t => t.id == task_id && t.user_id == user_id)

/-- `_task_payload` from `task_service.py`: the serialisable event payload
snapshot of a task row. -/
def taskPayload (t : TaskRow) : Payload :=
  { title := some t.title, description := some t.description,
    completed := some t.completed, priority := some t.priority,
    tags := some (t.tags.getD []),
    due_date := t.due_date.map DT.isoformat,
    recurrence := some t.recurrence,
    reminder_enabled := some t.reminder_enabled }

/-- Result dict of `MCPTaskService.add_task` (status is `"success"`
whenever no exception was raised; errors are embedded as `Except.error`
at the call site). -/
structure AddResult where
  task_id : Nat
  message : String
  event : Event
  deriving DecidableEq, Repr

/-- `MCPTaskService.add_task`: validate the enums (their constructors
raise `ValueError` on bad input), insert the new row via
`TaskService.create_task`, re-read it, and return the result dict with
its pre-built `task.created` event. -/
def addTask (st : Store) (user_id title : String)
    (description : Option String) (priority : String)
    (tags : Option (List String)) (due_date : Option DT)
    (recurrence : String) (reminder_enabled : Bool) :
    Except String (AddResult × Store) :=
  if ¬ priorityLevelValid priority then
    .error "ValueError: invalid PriorityLevel"
  else if ¬ recurrenceTypeValid recurrence then
    .error "ValueError: invalid RecurrenceType"
  else
    let t : TaskRow :=
      { id := st.nextId, user_id := user_id, title := title,
        description :=
          if strTruthy description then description.getD ""
          else "Added via chatbot",
        completed := false, priority := priority, tags := tags,
        due_date := due_date, recurrence := recurrence,
        reminder_enabled := reminder_enabled }
    let st' : Store := { st with tasks := st.tasks ++ [t],
                                 nextId := st.nextId + 1 }
    let model := getTaskById st' t.id user_id
    .ok ({ task_id := t.id,
           message := "Task '" ++ title ++ "' added successfully",
           event := makeTaskEvent "task.created" user_id (some t.id)
             (match model with
              | some m => taskPayload m
              | none => { title := some title }) st.now },
         st')

-- ── Recurrence subscriber (`subscribers.py`) ──────────────────────────

/-- Python string form of `event.get("task_id")` inside an f-string. -/
def tidRepr : Option Nat → String
  | some n => toString n
  | none => "None"

/-- Observable outcome of one `recurrence_subscriber` invocation: the
store afterwards, the tasks whose creation it requested (the rows its
`add_task` call inserted), the `(topic, envelope)` publishes it issued,
and the exception caught by its `except Exception` block, if any. -/
structure RecResult where
  store : Store
  created : List TaskRow
  published : List (String × Event)
  errorLogged : Option String
  deriving DecidableEq, Repr

/-- `recurrence_subscriber` from `subscribers.py`: on `task.completed`
with recurrence ≠ `"none"`, compute the next due date, call
`MCPTaskService.add_task` for the follow-up task and re-publish the
resulting `task.created` event; any exception inside the `try` block is
caught and logged. -/
def recurrenceStep (e : Event) (st : Store) : RecResult :=
  if e.event_type ≠ "task.completed" then
    { store := st, created := [], published := [], errorLogged := none }
  else
    let p := e.payload
    let recurrence := p.recurrence.getD "none"
    if recurrence = "none" then
      { store := st, created := [], published := [], errorLogged := none }
    else
      let title := p.title.getD "Recurring task"
      let nextDue := computeNextDue p.due_date recurrence
      let dueArg : Except String (Option DT) :=
        match nextDue with
        | none => .ok none
        | some s =>
          match DT.fromisoformat s with
          | some d => .ok (some d)
          | none => .error "ValueError: invalid isoformat string"
      match dueArg with
      | .error m =>
        { store := st, created := [], published := [], errorLogged := some m }
      | .ok dueDT =>
        match addTask st e.user_id (title ++ " (recurring)")
            (some ("Auto-created from recurring task #" ++ tidRepr e.task_id))
            (p.priority.getD "medium") p.tags dueDT recurrence
            (p.reminder_enabled.getD false) with
        | .error m =>
          { store := st, created := [], published := [],
            errorLogged := some m }
        | .ok (r, st') =>
          { store := st',
            created := st'.tasks.drop st.tasks.length,
            published := [(TOPIC_TASK_LIFECYCLE, r.event)],
            errorLogged := none }

-- ── SSE connection registry (`subscribers.py`) ────────────────────────

/-- The notification record pushed to SSE clients (`sse_event` in
`notification_subscriber`). -/
structure SseEvent where
  event_type : String
  task_id : Option Nat
  user_id : String
  title : String
  timestamp : String
  payload : Payload
  deriving DecidableEq, Repr

/-- An `asyncio.Queue` as used for one SSE connection.  `qid` models
Python object identity (queues are compared with `is`-like list
membership); `maxsize = 0` is asyncio's "infinite size" default. -/
structure Channel where
  qid : Nat
  maxsize : Nat
  items : List SseEvent
  deriving DecidableEq, Repr

/-- `asyncio.Queue.put_nowait`: raises `QueueFull` (the `error` case) iff
the queue is bounded (`0 < maxsize`) and full; otherwise appends. -/
def putNowait (c : Channel) (n : SseEvent) : Except Unit Channel :=
  if 0 < c.maxsize ∧ c.maxsize ≤ c.items.length then .error ()
  else .ok { c with items := c.items ++ [n] }

/-- The `_sse_queues` dict plus the fresh-identity counter for new
queues. -/
structure SSEState where
  reg : List (String × List Channel)
  nextId : Nat
  deriving DecidableEq, Repr

/-- The state at process start: `_sse_queues = {}`. -/
def sseInit : SSEState := { reg := [], nextId := 0 }

/-- `_sse_queues.get(u)` — the dict lookup. -/
def regGet (reg : List (String × List Channel)) (u : String) :
    Option (List Channel) :=
  (reg.find? (fun p => p.1 = u)).map (fun p => p.2)

/-- Replace the value stored under key `u` (the key is present). -/
def regSet (reg : List (String × List Channel)) (u : String)
    (l : List Channel) : List (String × List Channel) :=
  reg.map (fun p => if p.1 = u then (u, l) else p)

/-- `_sse_queues.pop(u, None)` — drop the key if present. -/
def regRemove (reg : List (String × List Channel)) (u : String) :
    List (String × List Channel) :=
  reg.filter (fun p => ¬ p.1 = u)

/-- `list.remove(q)`: drop the first element identical to the given
queue (identity is `qid`). -/
def removeFirstQid (qid : Nat) : List Channel → List Channel
  | [] => []
  | c :: cs => if c.qid = qid then cs else c :: removeFirstQid qid cs

/-- `sse_connect` from `subscribers.py`: create a new `asyncio.Queue()`
(default `maxsize = 0`), append it to the user's queue list
(`setdefault(user_id, []).append(q)`), return it. -/
def sseConnect (u : String) (st : SSEState) : Channel × SSEState :=
  let c : Channel := { qid := st.nextId, maxsize := 0, items := [] }
  let reg' :=
    match regGet st.reg u with
    | some l => regSet st.reg u (l ++ [c])
    | none => st.reg ++ [(u, [c])]
  (c, { reg := reg', nextId := st.nextId + 1 })

/-- `sse_disconnect` from `subscribers.py`: remove the queue from the
user's list if present; if the list is then empty (or the user was never
registered), pop the user's key. -/
def sseDisconnect (u : String) (c : Channel) (st : SSEState) : SSEState :=
  let queues := (regGet st.reg u).getD []
  let queues' :=
    if queues.any (fun q => q.qid = c.qid) then removeFirstQid c.qid queues
    else queues
  if queues' = [] then { st with reg := regRemove st.reg u }
  else { st with reg := regSet st.reg u queues' }

/-- Push an event to each queue of a user's list in order, collecting the
ids of queues whose `put_nowait` raised `QueueFull` (the drop-with-warning
branch). -/
def pushAll (n : SseEvent) : List Channel → List Channel × List Nat
  | [] => ([], [])
  | c :: cs =>
    let (cs', dropped) := pushAll n cs
    match putNowait c n with
    | .ok c' => (c' :: cs', dropped)
    | .error _ => (c :: cs', c.qid :: dropped)

/-- `notification_subscriber` from `subscribers.py`: build the normalized
notification record and `put_nowait` it onto every queue registered for
the envelope's user, dropping (with a warning) any push that raises
`QueueFull`.  Returns the new registry state and the dropped queue ids. -/
def notificationStep (e : Event) (st : SSEState) : SSEState × List Nat :=
  let note : SseEvent :=
    { event_type := e.event_type, task_id := e.task_id,
      user_id := e.user_id, title := e.payload.title.getD "",
      timestamp := e.timestamp, payload := e.payload }
  match regGet st.reg e.user_id with
  | none => (st, [])
  | some l =>
    let (l', dropped) := pushAll note l
    ({ st with reg := regSet st.reg e.user_id l' }, dropped)

/-- Well-formedness of the registry: reachable states have pairwise
distinct user keys, no empty queue lists, queue identities that are
pairwise distinct and below the freshness counter, and every queue
unbounded (`asyncio.Queue()` default). -/
def WFsse (st : SSEState) : Prop :=
  st.reg.Pairwise (fun a b => a.1 ≠ b.1) ∧
  ∀ p ∈ st.reg, p.2 ≠ [] ∧ (p.2.map (fun c => c.qid)).Nodup ∧
    ∀ c ∈ p.2, c.qid < st.nextId ∧ c.maxsize = 0

/-! ## Shared helper lemmas -/

theorem safeDispatch_received (h : Handler) (e : Event) :
    (safeDispatch h e).received = e := by
  unfold safeDispatch
  cases h e <;> rfl

/-! ## Claim theorems -/

/-- C6: for both backends, the envelope returned by `publish` has its
`topic` field equal to the topic argument, and `event_type`, `user_id`,
`task_id`, `timestamp` and `payload` are unchanged. -/
theorem publish_sets_topic_frames_rest (handlers : List Handler)
    (stream : List Event) (t : String) (e : Event) :
    ((inMemoryPublish handlers t e).env.topic = some t ∧
      (inMemoryPublish handlers t e).env.event_type = e.event_type ∧
      (inMemoryPublish handlers t e).env.user_id = e.user_id ∧
      (inMemoryPublish handlers t e).env.task_id = e.task_id ∧
      (inMemoryPublish handlers t e).env.timestamp = e.timestamp ∧
      (inMemoryPublish handlers t e).env.payload = e.payload) ∧
    ((redisPublish stream t e).1.topic = some t ∧
      (redisPublish stream t e).1.event_type = e.event_type ∧
      (redisPublish stream t e).1.user_id = e.user_id ∧
      (redisPublish stream t e).1.task_id = e.task_id ∧
      (redisPublish stream t e).1.timestamp = e.timestamp ∧
      (redisPublish stream t e).1.payload = e.payload) := by
  constructor <;> simp [inMemoryPublish, redisPublish]

/-- C5: an exception raised by one handler during dispatch of an envelope
does not prevent delivery of the envelope to any other handler on the
topic, and `publish` itself returns normally (with the enriched
envelope): every registered handler position receives exactly the
enriched envelope, whatever any handler raises. -/
theorem inMemory_handler_isolation (handlers : List Handler) (t : String)
    (e : Event) (i j : Nat) (hi : i < handlers.length)
    (hj : j < handlers.length) (m : String)
    (hfail : handlers.get ⟨j, hj⟩ { e with topic := some t } =
      .error m) :
    (inMemoryPublish handlers t e).env = { e with topic := some t } ∧
    (inMemoryPublish handlers t e).dispatches.length = handlers.length ∧
    ∃ log, (inMemoryPublish handlers t e).dispatches[i]? = some log ∧
      log.received = { e with topic := some t } := by
  refine ⟨rfl, by simp [inMemoryPublish], ?_⟩
  refine ⟨safeDispatch (handlers.get ⟨i, hi⟩) { e with topic := some t },
    ?_, safeDispatch_received _ _⟩
  simp [inMemoryPublish, List.getElem?_map, List.getElem?_eq_getElem hi]

/-- A handler that always raises. -/
def errHandler : Handler := fun _ => .error "RuntimeError: boom"

/-- A handler that always returns normally. -/
def okHandler : Handler := fun _ => .ok ()

/-- A concrete `task.created` envelope used in witnesses. -/
def evCreated : Event :=
  { event_type := "task.created", user_id := "u1" }

/-- Witness for `inMemory_handler_isolation`: with a raising handler
registered first and a normal one second, the second position still
receives the enriched envelope. -/
theorem inMemory_handler_isolation_witness :
    (inMemoryPublish [errHandler, okHandler] "task.lifecycle"
        evCreated).env = { evCreated with topic := some "task.lifecycle" } ∧
    (inMemoryPublish [errHandler, okHandler] "task.lifecycle"
        evCreated).dispatches.length = 2 ∧
    ∃ log,
      (inMemoryPublish [errHandler, okHandler] "task.lifecycle"
          evCreated).dispatches[1]? = some log ∧
      log.received = { evCreated with topic := some "task.lifecycle" } :=
  inMemory_handler_isolation [errHandler, okHandler] "task.lifecycle"
    evCreated 1 0 (by decide) (by decide) "RuntimeError: boom" rfl

/-- A concrete `task.completed` envelope as it travels on the durable
backend's stream. -/
def evCompletedWire : Event :=
  { event_type := "task.completed", user_id := "u1", task_id := some 7,
    timestamp := "2024-01-01T00:00:00",
    topic := some "task.lifecycle" }

/-- The serialized (`json.dumps`) form of `evCompletedWire`. -/
def wireGood : String :=
  "\x7b\"event_type\": \"task.completed\", \"user_id\": \"u1\", " ++
  "\"task_id\": 7, \"timestamp\": \"2024-01-01T00:00:00\", " ++
  "\"payload\": \x7b\x7d, \"topic\": \"task.lifecycle\"\x7d"

/-- Modelled from the spec: `json.loads` (standard library) restricted to
the wire strings the fixtures use — the serialized form of
`evCompletedWire` decodes back to it, and any other string (such as the
non-JSON `"garbage"`) raises a decode error, embedded as `none`. -/
def jsonLoadsFixture (s : String) : Option Event :=
  if s = wireGood then some evCompletedWire else none

/-- C2 as stated is false: in `RedisEventBus._consume` the handlers run
through `_safe_dispatch`, which catches handler exceptions, so `xack`
runs even when the handler raised.  Here the only handler raises on the
only entry, yet the entry is acknowledged (and its dispatch log records
the caught exception), so it is not left claimed for redelivery. -/
theorem consume_acks_failed_handler :
    (consumeBatch jsonLoadsFixture [errHandler] [(1, wireGood)]).acked =
      [1] ∧
    (consumeBatch jsonLoadsFixture [errHandler] [(1, wireGood)]).processed
      = [(1, evCompletedWire,
          [{ received := evCompletedWire,
             errorLogged := some "RuntimeError: boom" }])] := by
  constructor <;> rfl

/-- C2 amended: every entry the consumer loop dispatches is acknowledged,
whether or not its handlers raised — handler exceptions are caught at
the `_safe_dispatch` boundary and never leave an entry unacknowledged.
The acknowledged ids are exactly the dispatched ids, for every decode
function, every handler set and every batch. -/
theorem consume_acks_every_dispatched_entry
    (decode : String → Option Event) (handlers : List Handler)
    (batch : List (Nat × String)) :
    (consumeBatch decode handlers batch).acked =
      (consumeBatch decode handlers batch).processed.map
        (fun x => x.1) := by
  induction batch with
  | nil => rfl
  | cons hd tl ih =>
    obtain ⟨mid, data⟩ := hd
    unfold consumeBatch
    cases hdec : decode data with
    | none => rfl
    | some ev => simpa using ih

/-- C3 as stated is false: a decode failure in
`RedisEventBus._consume` raises out of the per-entry loop into the outer
`except`, so the poison entry is *not* acknowledged, and the later entry
of the same batch is neither dispatched nor acknowledged. -/
theorem consume_decode_failure_not_acked :
    (consumeBatch jsonLoadsFixture [okHandler]
        [(1, "garbage"), (2, wireGood)]).acked = [] ∧
    (consumeBatch jsonLoadsFixture [okHandler]
        [(1, "garbage"), (2, wireGood)]).processed = [] ∧
    (consumeBatch jsonLoadsFixture [okHandler]
        [(1, "garbage"), (2, wireGood)]).failedDecode = some 1 := by
  refine ⟨rfl, rfl, rfl⟩

/-- C3 amended: when an entry's envelope fails to decode, the exception
aborts the batch: entries before it are dispatched and acknowledged as
usual, the failing entry is logged by the outer handler but never
acknowledged, and the entries after it are neither dispatched nor
acknowledged in that iteration. -/
theorem consume_decode_failure_aborts_batch
    (decode : String → Option Event) (handlers : List Handler)
    (pre post : List (Nat × String)) (mid : Nat) (bad : String)
    (hpre : ∀ x ∈ pre, (decode x.2).isSome)
    (hbad : decode bad = none) :
    consumeBatch decode handlers (pre ++ (mid, bad) :: post) =
      { processed := (consumeBatch decode handlers pre).processed,
        acked := (consumeBatch decode handlers pre).acked,
        failedDecode := some mid } := by
  induction pre with
  | nil => simp [consumeBatch, hbad]
  | cons hd tl ih =>
    obtain ⟨m, d⟩ := hd
    have hd1 : (decode d).isSome := hpre (m, d) (by simp)
    obtain ⟨ev, hev⟩ := Option.isSome_iff_exists.mp hd1
    have ih' := ih (fun x hx => hpre x (by simp [hx]))
    simp only [List.cons_append, consumeBatch, hev]
    simp only [List.append_eq] at ih' ⊢
    rw [ih']

/-- Witness for `consume_decode_failure_aborts_batch`: a good entry, then
a poison entry, then another good entry — the first is dispatched and
acknowledged, the poison and the trailing entry are not. -/
theorem consume_decode_failure_aborts_batch_witness :
    consumeBatch jsonLoadsFixture [okHandler]
        [(1, wireGood), (2, "garbage"), (3, wireGood)] =
      { processed :=
          (consumeBatch jsonLoadsFixture [okHandler] [(1, wireGood)]).processed,
        acked :=
          (consumeBatch jsonLoadsFixture [okHandler] [(1, wireGood)]).acked,
        failedDecode := some 2 } :=
  consume_decode_failure_aborts_batch jsonLoadsFixture [okHandler]
    [(1, wireGood)] [(3, wireGood)] 2 "garbage"
    (by decide) (by decide)

theorem remMember_remDel (idx : PendingReminders) (k : Option Nat) :
    remMember (remDel idx k) k = false := by
  induction idx with
  | nil => rfl
  | cons hd tl ih =>
    by_cases h : hd.1 = k
    · simpa [remDel, remMember, h] using ih
    · simpa [remDel, remMember, h] using ih

/-- C7: after the reminder subscriber processes, in order, a
`task.created` event for task T with reminders enabled and a non-null
due date, and then a `task.updated` event for T with reminders disabled,
the reminder index does not contain T — from any initial index state. -/
theorem reminder_create_then_disable_clears (idx : PendingReminders)
    (T : Nat) (D : String) (e1 e2 : Event)
    (h1 : e1.event_type = "task.created")
    (h2 : e1.task_id = some T)
    (h3 : e1.payload.reminder_enabled = some true)
    (h4 : e1.payload.due_date = some D)
    (h5 : e2.event_type = "task.updated")
    (h6 : e2.task_id = some T)
    (h7 : e2.payload.reminder_enabled.getD false = false) :
    remMember (reminderStep e2 (reminderStep e1 idx)) (some T) = false := by
  set idx1 := reminderStep e1 idx with hidx1
  unfold reminderStep
  simp only [h5, h6, h7]
  by_cases hmem : remMember idx1 (some T) = true <;>
    simp [hmem, remMember_remDel]

/-- Witness for `reminder_create_then_disable_clears`: concrete events
for task 7 on a nonempty initial index. -/
theorem reminder_create_then_disable_clears_witness :
    remMember
      (reminderStep
        { event_type := "task.updated", user_id := "u1", task_id := some 7,
          payload := { reminder_enabled := some false } }
        (reminderStep
          { event_type := "task.created", user_id := "u1",
            task_id := some 7,
            payload := { reminder_enabled := some true,
                         due_date := some "2024-03-01T09:00:00" } }
          [(some 3, "2024-02-02T00:00:00")]))
      (some 7) = false :=
  reminder_create_then_disable_clears [(some 3, "2024-02-02T00:00:00")]
    7 "2024-03-01T09:00:00" _ _ rfl rfl rfl rfl rfl rfl rfl

/-- C10: `_compute_next_due` is total and never raises: it returns `None`
when the due date is `None` or empty, when recurrence is `"none"`, when
the recurrence is not one of the three known deltas, and when the due
date string fails to parse as ISO-8601 (the `ValueError` is caught);
consequently a completed event with an unparseable due date leaves the
recurrence subscriber behaving exactly as if the due date were absent —
it never propagates a parse error. -/
theorem compute_next_due_never_raises :
    (∀ rec, computeNextDue none rec = none) ∧
    (∀ rec, computeNextDue (some "") rec = none) ∧
    (∀ due, computeNextDue due "none" = none) ∧
    (∀ due rec, recurrenceDeltas rec = none → computeNextDue due rec = none) ∧
    (∀ s rec, DT.fromisoformat s = none →
      computeNextDue (some s) rec = none) ∧
    (∀ (e : Event) (st : Store) (s : String),
      e.payload.due_date = some s → DT.fromisoformat s = none →
      recurrenceStep e st =
        recurrenceStep
          { e with payload := { e.payload with due_date := none } } st) := by
  refine ⟨fun rec => rfl, fun rec => by simp [computeNextDue, strTruthy],
    ?_, ?_, ?_, ?_⟩
  · intro due
    simp [computeNextDue]
  · intro due rec hrec
    unfold computeNextDue
    split
    · rfl
    · rw [hrec]
  · intro s rec hparse
    unfold computeNextDue
    split
    · rfl
    · cases hd : recurrenceDeltas rec with
      | none => rfl
      | some delta => simp [hparse]
  · intro e st s hdue hparse
    have hnone : ∀ rec, computeNextDue (some s) rec = none := by
      intro rec
      unfold computeNextDue
      split
      · rfl
      · cases hd : recurrenceDeltas rec with
        | none => rfl
        | some delta => simp [hparse]
    have hnd : ∀ rec, computeNextDue e.payload.due_date rec =
        computeNextDue none rec := by
      intro rec
      rw [hdue, hnone rec]
      simp [computeNextDue, strTruthy]
    unfold recurrenceStep
    simp [hnd]

/-- Witness for `compute_next_due_never_raises`: the parse-failure cases
at the concrete non-ISO string "not-a-date". -/
theorem compute_next_due_never_raises_witness :
    computeNextDue (some "not-a-date") "daily" = none ∧
    recurrenceStep
        { event_type := "task.completed", user_id := "u1",
          task_id := some 7,
          payload := { recurrence := some "daily",
                       due_date := some "not-a-date" } }
        { tasks := [], nextId := 1, now := "2024-01-05T00:00:00" } =
      recurrenceStep
        { event_type := "task.completed", user_id := "u1",
          task_id := some 7,
          payload := { recurrence := some "daily", due_date := none } }
        { tasks := [], nextId := 1, now := "2024-01-05T00:00:00" } :=
  ⟨(compute_next_due_never_raises.2.2.2.2.1) "not-a-date" "daily"
      (by decide),
   (compute_next_due_never_raises.2.2.2.2.2)
      { event_type := "task.completed", user_id := "u1",
        task_id := some 7,
        payload := { recurrence := some "daily",
                     due_date := some "not-a-date" } }
      { tasks := [], nextId := 1, now := "2024-01-05T00:00:00" }
      "not-a-date" rfl (by decide)⟩

theorem find?_append_single {α} (p : α → Bool) (l : List α) (x : α)
    (h : ∀ a ∈ l, p a = false) :
    List.find? p (l ++ [x]) = if p x then some x else none := by
  induction l with
  | nil => cases hpx : p x <;> simp [List.find?, hpx]
  | cons hd tl ih =>
    have hhd : p hd = false := h hd (by simp)
    simp only [List.cons_append, List.find?, hhd]
    exact ih (fun a ha => h a (by simp [ha]))

theorem autoDescr_ne_empty (t : Option Nat) :
    ("Auto-created from recurring task #" ++ tidRepr t) ≠ "" := by
  intro h
  have hlen := congrArg String.length h
  rw [String.length_append] at hlen
  have h34 : "Auto-created from recurring task #".length = 34 := by decide
  have h0 : ("" : String).length = 0 := by decide
  rw [h34, h0] at hlen
  omega

/-- The row `MCPTaskService.add_task` inserts for the recurrence
subscriber's follow-up task. -/
def followUpRow (e : Event) (st : Store) (r : String) (dnew : Option DT) :
    TaskRow :=
  { id := st.nextId, user_id := e.user_id,
    title := (e.payload.title.getD "Recurring task") ++ " (recurring)",
    description := "Auto-created from recurring task #" ++ tidRepr e.task_id,
    completed := false, priority := e.payload.priority.getD "medium",
    tags := e.payload.tags, due_date := dnew, recurrence := r,
    reminder_enabled := e.payload.reminder_enabled.getD false }

theorem recurrenceStep_success (e : Event) (st : Store) (r : String)
    (dnew : Option DT)
    (h1 : e.event_type = "task.completed")
    (h2 : e.payload.recurrence = some r)
    (h4 : r ≠ "none")
    (h3 : recurrenceTypeValid r = true)
    (h6 : priorityLevelValid (e.payload.priority.getD "medium") = true)
    (hcase : (computeNextDue e.payload.due_date r = none ∧ dnew = none) ∨
      (∃ s d, computeNextDue e.payload.due_date r = some s ∧
        DT.fromisoformat s = some d ∧ dnew = some d)) :
    recurrenceStep e st =
      { store := { tasks := st.tasks ++ [followUpRow e st r dnew],
                   nextId := st.nextId + 1, now := st.now },
        created := [followUpRow e st r dnew],
        published := [(TOPIC_TASK_LIFECYCLE,
          makeTaskEvent "task.created" e.user_id (some st.nextId)
            (match getTaskById
                { tasks := st.tasks ++ [followUpRow e st r dnew],
                  nextId := st.nextId + 1, now := st.now }
                st.nextId e.user_id with
             | some m => taskPayload m
             | none =>
               { title := some ((e.payload.title.getD "Recurring task")
                   ++ " (recurring)") }) st.now)],
        errorLogged := none } := by
  have hdesc : strTruthy
      (some ("Auto-created from recurring task #" ++ tidRepr e.task_id)) =
      true := by
    simp [strTruthy, autoDescr_ne_empty]
  unfold recurrenceStep
  rw [h1]
  simp only [if_neg (by simp : ¬ ("task.completed" ≠ "task.completed")), h2,
    Option.getD_some]
  rw [if_neg h4]
  rcases hcase with ⟨hnd, hdn⟩ | ⟨s, d, hnd, hp, hdn⟩
  · rw [hnd]
    subst hdn
    unfold addTask
    simp only [h3, h6, hdesc, Bool.not_true, if_false, if_true,
      Option.getD_some, reduceCtorEq]
    simp [followUpRow, makeTaskEvent, List.drop_left, hdesc]
  · rw [hnd]
    subst hdn
    simp only [hp]
    unfold addTask
    simp only [h3, h6, hdesc, Bool.not_true, if_false, if_true,
      Option.getD_some, reduceCtorEq]
    simp [followUpRow, makeTaskEvent, List.drop_left, hdesc]

/-- A completed recurring-task envelope with an absent (`null`) due
date. -/
def evNoDue : Event :=
  { event_type := "task.completed", user_id := "u1", task_id := some 7,
    timestamp := "2024-01-05T12:00:00",
    payload := { title := some "Water plants", recurrence := some "daily",
                 reminder_enabled := some true },
    topic := some "task.lifecycle" }

/-- An empty task store. -/
def storeEmpty : Store :=
  { tasks := [], nextId := 1, now := "2024-01-05T12:00:01" }

/-- C1 as stated is false: on a `task.completed` envelope with
`recurrence = "daily"` and no due date, the recurrence subscriber is not
a no-op — `_compute_next_due` does return `None`, but the subscriber
has no early return on that and still requests the creation of one new
task (with a null due date) and re-publishes one `task.created` event. -/
theorem recurrence_absent_due_creates_task :
    computeNextDue none "daily" = none ∧
    (recurrenceStep evNoDue storeEmpty).created.length = 1 ∧
    (recurrenceStep evNoDue storeEmpty).published.length = 1 ∧
    (recurrenceStep evNoDue storeEmpty).errorLogged = none := by
  refine ⟨by decide, by decide, by decide, by decide⟩

/-- C1 amended: for a `task.completed` envelope whose recurrence is one
of the known kinds and whose due date is absent, the subscriber computes
no next due date (`None`), but it is not a no-op: it still requests
creation of exactly one new task, whose due date is null, and
re-publishes exactly one event for it. -/
theorem recurrence_absent_due_no_next_date_but_creates (e : Event)
    (st : Store) (r : String)
    (h1 : e.event_type = "task.completed")
    (h2 : e.payload.recurrence = some r)
    (h4 : r ≠ "none")
    (h3 : recurrenceTypeValid r = true)
    (h6 : priorityLevelValid (e.payload.priority.getD "medium") = true)
    (h5 : strTruthy e.payload.due_date = false) :
    computeNextDue e.payload.due_date r = none ∧
    (recurrenceStep e st).created = [followUpRow e st r none] ∧
    (followUpRow e st r none).due_date = none ∧
    (recurrenceStep e st).published.length = 1 ∧
    (recurrenceStep e st).errorLogged = none := by
  have hnd : computeNextDue e.payload.due_date r = none := by
    unfold computeNextDue
    rw [if_pos (Or.inl (by simp [h5]))]
  have hs := recurrenceStep_success e st r none h1 h2 h4 h3 h6
    (Or.inl ⟨hnd, rfl⟩)
  rw [hs]
  exact ⟨hnd, rfl, rfl, rfl, rfl⟩

/-- Witness for `recurrence_absent_due_no_next_date_but_creates` at the
concrete no-due-date envelope `evNoDue`. -/
theorem recurrence_absent_due_no_next_date_but_creates_witness :
    computeNextDue evNoDue.payload.due_date "daily" = none ∧
    (recurrenceStep evNoDue storeEmpty).created =
      [followUpRow evNoDue storeEmpty "daily" none] ∧
    (followUpRow evNoDue storeEmpty "daily" none).due_date = none ∧
    (recurrenceStep evNoDue storeEmpty).published.length = 1 ∧
    (recurrenceStep evNoDue storeEmpty).errorLogged = none :=
  recurrence_absent_due_no_next_date_but_creates evNoDue storeEmpty "daily"
    rfl rfl (by decide) (by decide) (by decide) (by decide)

/-- C8: on `task.completed` with `recurrence = "daily"` and
`due_date = 2024-01-01T00:00:00`, the recurrence subscriber requests
creation of exactly one new task, due `2024-01-02T00:00:00`, carrying
the same priority, tags, recurrence and reminder flag with the title
suffixed `" (recurring)"`, and re-publishes exactly one `task.created`
event for it (`hwf`: existing row ids are below the store's next id, as
the database guarantees for its autoincrement key). -/
theorem recurrence_daily_creates_next_day (e : Event) (st : Store)
    (h1 : e.event_type = "task.completed")
    (h2 : e.payload.recurrence = some "daily")
    (h3 : e.payload.due_date = some "2024-01-01T00:00:00")
    (h6 : priorityLevelValid (e.payload.priority.getD "medium") = true)
    (hwf : ∀ tk ∈ st.tasks, tk.id < st.nextId) :
    computeNextDue e.payload.due_date "daily" =
      some "2024-01-02T00:00:00" ∧
    (recurrenceStep e st).created =
      [followUpRow e st "daily" (some ⟨2024, 1, 2, 0, 0, 0, 0⟩)] ∧
    (recurrenceStep e st).published =
      [(TOPIC_TASK_LIFECYCLE,
        makeTaskEvent "task.created" e.user_id (some st.nextId)
          (taskPayload (followUpRow e st "daily"
            (some ⟨2024, 1, 2, 0, 0, 0, 0⟩))) st.now)] ∧
    taskPayload (followUpRow e st "daily" (some ⟨2024, 1, 2, 0, 0, 0, 0⟩)) =
      { title := some ((e.payload.title.getD "Recurring task")
          ++ " (recurring)"),
        description := some ("Auto-created from recurring task #"
          ++ tidRepr e.task_id),
        completed := some false,
        priority := some (e.payload.priority.getD "medium"),
        tags := some (e.payload.tags.getD []),
        due_date := some "2024-01-02T00:00:00",
        recurrence := some "daily",
        reminder_enabled := some (e.payload.reminder_enabled.getD false) } := by
  have hnd : computeNextDue e.payload.due_date "daily" =
      some "2024-01-02T00:00:00" := by
    rw [h3]; decide
  have hp : DT.fromisoformat "2024-01-02T00:00:00" =
      some ⟨2024, 1, 2, 0, 0, 0, 0⟩ := by decide
  have hs := recurrenceStep_success e st "daily"
    (some ⟨2024, 1, 2, 0, 0, 0, 0⟩) h1 h2 (by decide) (by decide) h6
    (Or.inr ⟨_, _, hnd, hp, rfl⟩)
  have hfind : getTaskById
      { tasks := st.tasks ++ [followUpRow e st "daily"
          (some ⟨2024, 1, 2, 0, 0, 0, 0⟩)],
        nextId := st.nextId + 1, now := st.now } st.nextId e.user_id =
      some (followUpRow e st "daily" (some ⟨2024, 1, 2, 0, 0, 0, 0⟩)) := by
    unfold getTaskById
    rw [find?_append_single]
    · simp [followUpRow]
    · intro a ha
      have hlt := hwf a ha
      simp [Nat.ne_of_lt hlt]
  rw [hs]
  refine ⟨hnd, rfl, by simp only [hfind], ?_⟩
  have hiso : DT.isoformat ⟨2024, 1, 2, 0, 0, 0, 0⟩ =
      "2024-01-02T00:00:00" := by decide
  simp [taskPayload, followUpRow, hiso]

/-- A concrete completed daily-recurring envelope due on
2024-01-01T00:00:00. -/
def evDaily : Event :=
  { event_type := "task.completed", user_id := "u1", task_id := some 7,
    timestamp := "2024-01-01T08:00:00",
    payload := { title := some "Gym", priority := some "high",
                 tags := some ["fitness"],
                 due_date := some "2024-01-01T00:00:00",
                 recurrence := some "daily",
                 reminder_enabled := some true },
    topic := some "task.lifecycle" }

/-- Witness for `recurrence_daily_creates_next_day` at the concrete
envelope `evDaily` on the empty store. -/
theorem recurrence_daily_creates_next_day_witness :
    computeNextDue evDaily.payload.due_date "daily" =
      some "2024-01-02T00:00:00" ∧
    (recurrenceStep evDaily storeEmpty).created =
      [followUpRow evDaily storeEmpty "daily"
        (some ⟨2024, 1, 2, 0, 0, 0, 0⟩)] ∧
    (recurrenceStep evDaily storeEmpty).published =
      [(TOPIC_TASK_LIFECYCLE,
        makeTaskEvent "task.created" evDaily.user_id
          (some storeEmpty.nextId)
          (taskPayload (followUpRow evDaily storeEmpty "daily"
            (some ⟨2024, 1, 2, 0, 0, 0, 0⟩))) storeEmpty.now)] ∧
    taskPayload (followUpRow evDaily storeEmpty "daily"
        (some ⟨2024, 1, 2, 0, 0, 0, 0⟩)) =
      { title := some ((evDaily.payload.title.getD "Recurring task")
          ++ " (recurring)"),
        description := some ("Auto-created from recurring task #"
          ++ tidRepr evDaily.task_id),
        completed := some false,
        priority := some (evDaily.payload.priority.getD "medium"),
        tags := some (evDaily.payload.tags.getD []),
        due_date := some "2024-01-02T00:00:00",
        recurrence := some "daily",
        reminder_enabled := some (evDaily.payload.reminder_enabled.getD false) } :=
  recurrence_daily_creates_next_day evDaily storeEmpty rfl rfl rfl
    (by decide) (by simp [storeEmpty])

theorem regGet_eq_none (reg : List (String × List Channel)) (u : String)
    (h : regGet reg u = none) : ∀ p ∈ reg, p.1 ≠ u := by
  intro p hp
  unfold regGet at h
  rw [Option.map_eq_none'] at h
  have := List.find?_eq_none.mp h p hp
  simpa using this

theorem regRemove_of_not_mem (reg : List (String × List Channel))
    (u : String) (h : regGet reg u = none) : regRemove reg u = reg := by
  unfold regRemove
  rw [List.filter_eq_self]
  intro p hp
  simpa using regGet_eq_none reg u h p hp

theorem regGet_mem (reg : List (String × List Channel)) (u : String)
    (l : List Channel) (h : regGet reg u = some l) : (u, l) ∈ reg := by
  unfold regGet at h
  rw [Option.map_eq_some'] at h
  obtain ⟨p, hfind, hsnd⟩ := h
  have hmem := List.mem_of_find?_eq_some hfind
  have hfst := List.find?_some hfind
  simp only [decide_eq_true_eq] at hfst
  have : p = (u, l) := by
    cases p
    simp_all
  rwa [this] at hmem

theorem regGet_regRemove (reg : List (String × List Channel))
    (u : String) : regGet (regRemove reg u) u = none := by
  unfold regGet regRemove
  rw [Option.map_eq_none', List.find?_eq_none]
  intro p hp
  have := List.of_mem_filter hp
  simpa using this

theorem regSet_self (reg : List (String × List Channel)) (u : String)
    (l : List Channel) (hpw : reg.Pairwise (fun a b => a.1 ≠ b.1))
    (h : regGet reg u = some l) : regSet reg u l = reg := by
  induction reg with
  | nil => simp [regGet] at h
  | cons p tl ih =>
    rw [List.pairwise_cons] at hpw
    by_cases hp : p.1 = u
    · have hpl : p = (u, l) := by
        unfold regGet at h
        rw [List.find?_cons_of_pos _ (by simp [hp])] at h
        cases p
        simp_all
    -- head is the key: value already equals l, tail untouched
      subst hpl
      unfold regSet
      simp only [List.map_cons, if_pos rfl]
      have htl : ∀ q ∈ tl, ¬ q.1 = u := by
        intro q hq
        exact fun hqu => (hpw.1 q hq) hqu.symm
      congr 1
      have hmap : List.map (fun p => if p.1 = u then (u, l) else p) tl =
          List.map id tl :=
        List.map_congr_left (fun q hq => by rw [if_neg (htl q hq)]; rfl)
      rw [hmap, List.map_id]
    · have htl : regGet tl u = some l := by
        unfold regGet at h ⊢
        rwa [List.find?_cons_of_neg _ (by simpa using hp)] at h
      unfold regSet at ih ⊢
      simp only [List.map_cons, if_neg hp]
      rw [ih hpw.2 htl]

theorem regGet_regSet_of_mem (reg : List (String × List Channel))
    (u : String) (l0 l : List Channel) (h : regGet reg u = some l0) :
    regGet (regSet reg u l) u = some l := by
  induction reg with
  | nil => simp [regGet] at h
  | cons p tl ih =>
    by_cases hp : p.1 = u
    · unfold regSet regGet
      rw [List.map_cons, if_pos hp, List.find?_cons_of_pos _ (by simp)]
      rfl
    · have htl : regGet tl u = some l0 := by
        unfold regGet at h ⊢
        rwa [List.find?_cons_of_neg _ (by simpa using hp)] at h
      unfold regSet regGet at ih ⊢
      rw [List.map_cons, if_neg hp,
        List.find?_cons_of_neg _ (by simpa using hp)]
      exact ih htl

theorem removeFirstQid_of_not_mem (qid : Nat) (l : List Channel)
    (h : ∀ q ∈ l, q.qid ≠ qid) : removeFirstQid qid l = l := by
  induction l with
  | nil => rfl
  | cons c cs ih =>
    unfold removeFirstQid
    rw [if_neg (h c (by simp))]
    rw [ih (fun q hq => h q (by simp [hq]))]

theorem removeFirstQid_sublist (qid : Nat) (l : List Channel) :
    (removeFirstQid qid l).Sublist l := by
  induction l with
  | nil => simp [removeFirstQid]
  | cons c cs ih =>
    unfold removeFirstQid
    by_cases hc : c.qid = qid
    · rw [if_pos hc]
      exact List.sublist_cons_of_sublist c (List.Sublist.refl cs)
    · rw [if_neg hc]
      exact List.Sublist.cons₂ c ih

theorem not_mem_removeFirstQid (qid : Nat) (l : List Channel)
    (hnd : (l.map (fun c => c.qid)).Nodup) :
    ∀ q ∈ removeFirstQid qid l, q.qid ≠ qid := by
  induction l with
  | nil => simp [removeFirstQid]
  | cons c cs ih =>
    rw [List.map_cons, List.nodup_cons] at hnd
    unfold removeFirstQid
    by_cases hc : c.qid = qid
    · rw [if_pos hc]
      intro q hq hqid
      exact hnd.1 (by rw [hc, ← hqid]; exact List.mem_map_of_mem _ hq)
    · rw [if_neg hc]
      intro q hq
      rcases List.mem_cons.mp hq with hq | hq
      · rw [hq]; exact hc
      · exact ih hnd.2 q hq

theorem regSet_pairwise (reg : List (String × List Channel)) (u : String)
    (l : List Channel) (hpw : reg.Pairwise (fun a b => a.1 ≠ b.1)) :
    (regSet reg u l).Pairwise (fun a b => a.1 ≠ b.1) := by
  have hkeys : (regSet reg u l).map (fun p => p.1) =
      reg.map (fun p => p.1) := by
    unfold regSet
    rw [List.map_map]
    apply List.map_congr_left
    intro p hp
    by_cases h : p.1 = u <;> simp [h]
  have h1 : List.Pairwise Ne (reg.map (fun p => p.1)) :=
    List.pairwise_map.mpr hpw
  have h2 : List.Pairwise Ne ((regSet reg u l).map (fun p => p.1)) := by
    rw [hkeys]; exact h1
  exact List.pairwise_map.mp h2

/-- `sse_disconnect` for a user with no registry entry: pure no-op
(`pop` of a missing key). -/
theorem sseDisconnect_no_key (u : String) (c : Channel) (st : SSEState)
    (h : regGet st.reg u = none) : sseDisconnect u c st = st := by
  unfold sseDisconnect
  rw [h]
  simp [regRemove_of_not_mem st.reg u h]

/-- `sse_disconnect` for a registered user whose queue list does not
contain the channel: pure no-op. -/
theorem sseDisconnect_not_present (u : String) (c : Channel)
    (st : SSEState) (l : List Channel)
    (hpw : st.reg.Pairwise (fun a b => a.1 ≠ b.1))
    (h : regGet st.reg u = some l) (hne : l ≠ [])
    (hno : l.any (fun q => q.qid = c.qid) = false) :
    sseDisconnect u c st = st := by
  unfold sseDisconnect
  rw [h]
  simp [hno, hne, regSet_self st.reg u l hpw h]

/-- C9: `sse_disconnect` never raises (it is a total function), calling
it twice with the same channel leaves the registry exactly as calling it
once, calling it for a channel that was never registered for the user is
a no-op, and it never leaves a user key mapped to an empty channel list
(the key is popped instead). -/
theorem sse_disconnect_idempotent_noop (u : String) (c : Channel)
    (st : SSEState) (hwf : WFsse st) :
    sseDisconnect u c (sseDisconnect u c st) = sseDisconnect u c st ∧
    ((∀ q ∈ (regGet st.reg u).getD [], q.qid ≠ c.qid) →
      sseDisconnect u c st = st) ∧
    regGet (sseDisconnect u c st).reg u ≠ some [] := by
  obtain ⟨hpw, hmem⟩ := hwf
  cases hreg : regGet st.reg u with
  | none =>
    have h1 := sseDisconnect_no_key u c st hreg
    refine ⟨by rw [h1]; exact h1, fun _ => h1, by rw [h1, hreg]; simp⟩
  | some l =>
    obtain ⟨hlne, hlnd, -⟩ := hmem (u, l) (regGet_mem _ _ _ hreg)
    by_cases hany : l.any (fun q => q.qid = c.qid) = true
    · have hx := List.any_eq_true.mp hany
      simp only [decide_eq_true_eq] at hx
      obtain ⟨q0, hq0, hq0c⟩ := hx
      have hnoop : (∀ q ∈ (some l : Option (List Channel)).getD [],
          q.qid ≠ c.qid) → sseDisconnect u c st = st := by
        intro hno
        exfalso
        simp only [Option.getD_some] at hno
        exact hno q0 hq0 hq0c
      by_cases hemp : removeFirstQid c.qid l = []
      · have h1 : sseDisconnect u c st =
            { st with reg := regRemove st.reg u } := by
          unfold sseDisconnect
          rw [hreg]
          simp only [Option.getD_some]
          rw [if_pos hany, if_pos hemp]
        have hg1 : regGet (regRemove st.reg u) u = none :=
          regGet_regRemove _ _
        have h2 := sseDisconnect_no_key u c
          { st with reg := regRemove st.reg u } hg1
        refine ⟨by rw [h1, h2], hnoop, ?_⟩
        rw [h1]
        show regGet (regRemove st.reg u) u ≠ some []
        rw [hg1]
        simp
      · have h1 : sseDisconnect u c st =
            { st with reg := regSet st.reg u (removeFirstQid c.qid l) } := by
          unfold sseDisconnect
          rw [hreg]
          simp only [Option.getD_some]
          rw [if_pos hany, if_neg hemp]
        have hg1 : regGet (regSet st.reg u (removeFirstQid c.qid l)) u =
            some (removeFirstQid c.qid l) :=
          regGet_regSet_of_mem _ _ _ _ hreg
        have hnomem := not_mem_removeFirstQid c.qid l hlnd
        have hany2 : (removeFirstQid c.qid l).any
            (fun q => q.qid = c.qid) = false := by
          rw [List.any_eq_false]
          intro q hq
          simpa using hnomem q hq
        have hpw2 := regSet_pairwise st.reg u (removeFirstQid c.qid l) hpw
        have h2 := sseDisconnect_not_present u c
          { st with reg := regSet st.reg u (removeFirstQid c.qid l) }
          (removeFirstQid c.qid l) hpw2 hg1 hemp hany2
        refine ⟨by rw [h1, h2], hnoop, ?_⟩
        rw [h1]
        have : regGet ({ st with
            reg := regSet st.reg u (removeFirstQid c.qid l) }).reg u =
            some (removeFirstQid c.qid l) := hg1
        rw [this]
        exact fun hc => hemp (Option.some.inj hc)
    · have hany' : l.any (fun q => q.qid = c.qid) = false := by
        simpa using hany
      have h1 := sseDisconnect_not_present u c st l hpw hreg hlne hany'
      refine ⟨by rw [h1]; exact h1, fun _ => h1, ?_⟩
      rw [h1, hreg]
      exact fun hc => hlne (Option.some.inj hc)

/-- Witness for `sse_disconnect_idempotent_noop`: a concrete registry
with one connected channel for user `"u1"`, checked well-formed, then
disconnected twice. -/
theorem sse_disconnect_idempotent_noop_witness :
    WFsse (sseConnect "u1" sseInit).2 ∧
    (sseDisconnect "u1" (sseConnect "u1" sseInit).1
        (sseDisconnect "u1" (sseConnect "u1" sseInit).1
          (sseConnect "u1" sseInit).2) =
      sseDisconnect "u1" (sseConnect "u1" sseInit).1
        (sseConnect "u1" sseInit).2) ∧
    regGet (sseDisconnect "u1" (sseConnect "u1" sseInit).1
        (sseConnect "u1" sseInit).2).reg "u1" ≠ some [] := by
  have hwf : WFsse (sseConnect "u1" sseInit).2 := by
    constructor
    · decide
    · decide
  have h := sse_disconnect_idempotent_noop "u1"
    (sseConnect "u1" sseInit).1 (sseConnect "u1" sseInit).2 hwf
  exact ⟨hwf, h.1, h.2.2⟩

theorem putNowait_unbounded (c : Channel) (n : SseEvent)
    (h : c.maxsize = 0) :
    putNowait c n = .ok { c with items := c.items ++ [n] } := by
  unfold putNowait
  rw [if_neg]
  simp [h]

theorem pushAll_no_drop (n : SseEvent) (l : List Channel)
    (h : ∀ ch ∈ l, ch.maxsize = 0) : (pushAll n l).2 = [] := by
  induction l with
  | nil => rfl
  | cons c cs ih =>
    have hc := putNowait_unbounded c n (h c (by simp))
    have ih' := ih (fun ch hch => h ch (by simp [hch]))
    simp [pushAll, hc, ih']

/-- C4 amended: `sse_connect` creates and registers a new channel, but
the channel is *unbounded* (`asyncio.Queue()` is created with its
default `maxsize = 0`, meaning infinite capacity), not bounded.
Consequently a channel's outbound buffer is never full: every push by
the notification subscriber succeeds without blocking, and the
drop-with-warning branch, though present in the code, is unreachable
for channels created by `sse_connect` (all reachable registry states,
`WFsse`). -/
theorem sse_connect_unbounded_never_drops (u : String) (st : SSEState)
    (e : Event) (hwf : WFsse st) :
    (sseConnect u st).1.maxsize = 0 ∧
    regGet (sseConnect u st).2.reg u =
      some ((regGet st.reg u).getD [] ++ [(sseConnect u st).1]) ∧
    (notificationStep e st).2 = [] := by
  obtain ⟨hpw, hmem⟩ := hwf
  refine ⟨rfl, ?_, ?_⟩
  · unfold sseConnect
    cases hreg : regGet st.reg u with
    | some l =>
      simp only [hreg, Option.getD_some]
      exact regGet_regSet_of_mem st.reg u l _ hreg
    | none =>
      simp only [hreg, Option.getD_none, List.nil_append]
      unfold regGet
      rw [find?_append_single _ _ _
        (fun a ha => by simpa using regGet_eq_none st.reg u hreg a ha)]
      simp
  · unfold notificationStep
    cases hreg : regGet st.reg e.user_id with
    | none => rfl
    | some l =>
      obtain ⟨-, -, hq⟩ := hmem (e.user_id, l) (regGet_mem _ _ _ hreg)
      have hnd := pushAll_no_drop
        { event_type := e.event_type, task_id := e.task_id,
          user_id := e.user_id, title := e.payload.title.getD "",
          timestamp := e.timestamp, payload := e.payload } l
        (fun ch hch => (hq ch hch).2)
      simp [hreg, hnd]

/-- Witness for `sse_connect_unbounded_never_drops`: a registry with one
connected channel for `"u1"`, then a second connect for the same user
and a notification for `"u1"`. -/
theorem sse_connect_unbounded_never_drops_witness :
    (sseConnect "u1" (sseConnect "u1" sseInit).2).1.maxsize = 0 ∧
    regGet (sseConnect "u1" (sseConnect "u1" sseInit).2).2.reg "u1" =
      some ((regGet (sseConnect "u1" sseInit).2.reg "u1").getD [] ++
        [(sseConnect "u1" (sseConnect "u1" sseInit).2).1]) ∧
    (notificationStep evCreated (sseConnect "u1" sseInit).2).2 = [] :=
  sse_connect_unbounded_never_drops "u1" (sseConnect "u1" sseInit).2
    evCreated ⟨by decide, by decide⟩

set_option maxRecDepth 4000 in
/-- C4 as stated is false in two parts: the channel `sse_connect`
creates is *not* bounded — `asyncio.Queue()` is instantiated with its
default `maxsize = 0`, which asyncio documents as infinite capacity —
and therefore the `QueueFull` drop branch is not reachable: even after
fifty notifications have been pushed into the only channel of `"u1"`
without any consumer reading it, the fifty-first push is still accepted
and nothing is dropped. -/
theorem sse_channel_unbounded_counterexample :
    (sseConnect "u1" sseInit).1.maxsize = 0 ∧
    (notificationStep evCreated
      ((fun s => (notificationStep evCreated s).1)^[50]
        (sseConnect "u1" sseInit).2)).2 = [] := by
  constructor
  · rfl
  · decide
